import Mathlib

/-!
Verification of the LiftLab simulation kernel.

Shallow embedding of the TypeScript sources of the LiftLab repository:
  * packages/sim/src/rng.ts        (LCG random number generator)
  * packages/sim/src/models.ts     (domain enums and records)
  * packages/sim/src/elevator.ts   (ElevatorCar state machine)
  * packages/sim/src/algorithms.ts (greedy dispatch policy, two revisions)
  * packages/sim/src/spawner.ts    (PassengerSpawner)

Numbers: JS `number` values that are always integers in the source
(floors, capacities, seeds) are modelled as ℤ/ℕ; time quantities
(deltaTime, timers) as ℚ.  The only floating-point operations the
source performs on the quantities the claims mention are additions,
subtractions, comparisons, and divisions by 2^32 of values small
enough to be exact in IEEE double precision, so the rational model is
faithful; transcendental functions (Math.exp, Math.log, ...) used by
the spawner's Poisson sampling are abstracted as an explicit function
parameter (see `FloatModel`).
-/

namespace LiftLab

/-- `Direction` enum from models.ts. -/
inductive Direction where
  | up
  | down
  | idle
deriving DecidableEq, Repr

/-- `DoorState` enum from models.ts (`open` is a Lean keyword, hence `open_`). -/
inductive DoorState where
  | open_
  | closed
  | opening
  | closing
deriving DecidableEq, Repr

/-- `ElevatorAction` enum from models.ts.  The enum is string-valued in
TypeScript, so a runtime value can fall outside the five known actions;
`unknownAction` models the `default:` branch of `executeCommand`. -/
inductive ElevatorAction where
  | moveUp
  | moveDown
  | openDoors
  | closeDoors
  | wait
  | unknownAction (raw : String)
deriving DecidableEq, Repr

/-- Passenger id produced by `RandomUtils.generateId` in rng.ts: a
`Date.now()` timestamp plus a random component `⌊u·10^6⌋`; the base-36
string formatting is dropped (it is injective on this data and no code
the claims mention inspects the string). -/
structure PassengerId where
  timestamp : ℕ
  randomPart : ℤ
deriving DecidableEq, Repr

/-- `Passenger` record from models.ts. -/
structure Passenger where
  id : PassengerId
  startFloor : ℤ
  destinationFloor : ℤ
  requestTime : ℚ
  pickupTime : Option ℚ := none
  dropoffTime : Option ℚ := none
deriving DecidableEq, Repr

/-! ### rng.ts — `LCGRandom` -/

/-- LCG modulus `m = 2^32` (rng.ts line 43). -/
def lcgM : ℕ := 2 ^ 32

/-- Internal state of `LCGRandom`: the current seed. -/
structure LCG where
  seed : ℕ
deriving DecidableEq, Repr

/-- `new LCGRandom(seed)` / `createSeededRNG(seed)`:
`this.seed = Math.abs(Math.floor(seed)) || 1`. -/
def createSeededRNG (seed : ℚ) : LCG :=
  let n := (⌊seed⌋ : ℤ).natAbs
  ⟨if n = 0 then 1 else n⟩

/-- `nextFloat()`: advance the LCG and return `seed / m ∈ [0,1)`. -/
def LCG.nextFloat (r : LCG) : ℚ × LCG :=
  let s := (1664525 * r.seed + 1013904223) % lcgM
  ((s : ℚ) / (lcgM : ℚ), ⟨s⟩)

/-- `nextInt(min, max)`: throws on `min ≥ max`, else
`Math.floor(nextFloat() * (max - min)) + min`. -/
def LCG.nextInt (r : LCG) (min max : ℤ) : Except String (ℤ × LCG) :=
  if min ≥ max then
    .error "Invalid range"
  else
    let (u, r') := r.nextFloat
    .ok (⌊u * ((max - min : ℤ) : ℚ)⌋ + min, r')

/-- `nextIntMax(max) = nextInt(0, max)`. -/
def LCG.nextIntMax (r : LCG) (max : ℤ) : Except String (ℤ × LCG) :=
  r.nextInt 0 max

/-- `nextBoolean(p)`: throws when `p ∉ [0,1]`, else `nextFloat() < p`. -/
def LCG.nextBoolean (r : LCG) (p : ℚ) : Except String (Bool × LCG) :=
  if p < 0 ∨ p > 1 then
    .error "Invalid probability"
  else
    let (u, r') := r.nextFloat
    .ok (decide (u < p), r')

/-- `choice(array)`: throws on an empty array, else the element at index
`nextIntMax(array.length)`. -/
def LCG.choice (r : LCG) (xs : List ℤ) : Except String (ℤ × LCG) :=
  if xs.isEmpty then
    .error "Cannot choose from empty array"
  else
    match r.nextIntMax xs.length with
    | .error e => .error e
    | .ok (i, r') => .ok (xs.getD i.toNat 0, r')

/-- One step of the Fisher–Yates loop body of `shuffle` for index `i ≥ 1`:
`j = nextIntMax(i+1)` followed by the swap of positions `i` and `j`. -/
def shuffleStep (a : List ℤ) (i : ℕ) (r : LCG) : List ℤ × LCG :=
  match r.nextIntMax (i + 1) with
  | .error _ => (a, r)
  | .ok (j, r') =>
      let jn := j.toNat
      let ai := a.getD i 0
      let aj := a.getD jn 0
      (((a.set i aj).set jn ai), r')

/-- `shuffle(array)`: Fisher–Yates, iterating `i` from `length-1` down to 1.
The argument `i` is the current loop index. -/
def shuffleFrom (a : List ℤ) (r : LCG) : ℕ → List ℤ × LCG
  | 0 => (a, r)
  | i + 1 =>
      let (a', r') := shuffleStep a (i + 1) r
      shuffleFrom a' r' i

/-- `shuffle(array)` entry point. -/
def LCG.shuffle (r : LCG) (xs : List ℤ) : List ℤ × LCG :=
  shuffleFrom xs r (xs.length - 1)

/-- One abstract RNG operation, for stating determinism over arbitrary
operation sequences (element type fixed to ℤ for `choice`/`shuffle`). -/
inductive RNGOp where
  | nextFloat
  | nextInt (min max : ℤ)
  | nextIntMax (max : ℤ)
  | nextBoolean (p : ℚ)
  | choice (xs : List ℤ)
  | shuffle (xs : List ℤ)
deriving DecidableEq, Repr

/-- Observable output of one RNG operation. -/
inductive RNGOut where
  | f (q : ℚ)
  | i (n : ℤ)
  | b (v : Bool)
  | l (xs : List ℤ)
  | err (e : String)
deriving DecidableEq, Repr

/-- Run one RNG operation, observing its output. A thrown exception is the
`err` output paired with the pre-throw state. -/
def runOp (r : LCG) : RNGOp → RNGOut × LCG
  | .nextFloat => let (q, r') := r.nextFloat; (.f q, r')
  | .nextInt min max =>
      match r.nextInt min max with
      | .ok (n, r') => (.i n, r')
      | .error e => (.err e, r)
  | .nextIntMax max =>
      match r.nextIntMax max with
      | .ok (n, r') => (.i n, r')
      | .error e => (.err e, r)
  | .nextBoolean p =>
      match r.nextBoolean p with
      | .ok (v, r') => (.b v, r')
      | .error e => (.err e, r)
  | .choice xs =>
      match r.choice xs with
      | .ok (n, r') => (.i n, r')
      | .error e => (.err e, r)
  | .shuffle xs => let (ys, r') := r.shuffle xs; (.l ys, r')

/-- Run a sequence of RNG operations, collecting the outputs. -/
def runOps : List RNGOp → LCG → List RNGOut
  | [], _ => []
  | op :: ops, r =>
      let (out, r') := runOp r op
      out :: runOps ops r'

/-! ### elevator.ts — `ElevatorCar` state machine -/

/-- `ElevatorConfig` from elevator.ts. -/
structure ElevatorConfig where
  id : String
  capacity : ℕ
  floorTravelTime : ℚ
  doorOperationTime : ℚ
  doorHoldTime : ℚ
  floorCount : ℤ
deriving DecidableEq, Repr

/-- `ElevatorInternalState` from elevator.ts. -/
structure EState where
  currentFloor : ℤ
  targetFloor : Option ℤ
  direction : Direction
  doorState : DoorState
  doorTimer : ℚ
  moveTimer : ℚ
  passengers : List Passenger
  requestedFloors : Finset ℤ
  dropoffFloors : Finset ℤ
  pickupFloors : Finset ℤ
  isMoving : Bool
  actionStartTime : ℚ
deriving DecidableEq

/-- `Elevator` public snapshot from models.ts. -/
structure Elevator where
  id : String
  currentFloor : ℤ
  direction : Direction
  doorState : DoorState
  passengers : List Passenger
  capacity : ℕ
  targetFloors : Finset ℤ
deriving DecidableEq

/-- `ElevatorCommand` from models.ts. -/
structure ElevatorCommand where
  elevatorId : String
  action : ElevatorAction
  targetFloor : Option ℤ := none
deriving DecidableEq, Repr

/-- `isElevatorFull` from models.ts. -/
def isElevatorFull (e : Elevator) : Bool :=
  e.passengers.length ≥ e.capacity

/-- `ElevatorCar` constructor: clamp the initial floor into
`[0, floorCount-1]`, everything else empty/zero. -/
def mkElevator (cfg : ElevatorConfig) (initialFloor : ℤ) : EState :=
  { currentFloor := max 0 (min initialFloor (cfg.floorCount - 1))
    targetFloor := none
    direction := .idle
    doorState := .closed
    doorTimer := 0
    moveTimer := 0
    passengers := []
    requestedFloors := ∅
    dropoffFloors := ∅
    pickupFloors := ∅
    isMoving := false
    actionStartTime := 0 }

/-- `getState()`: public snapshot; `targetFloors` is the union of the
dropoff and pickup sets. -/
def getState (cfg : ElevatorConfig) (s : EState) : Elevator :=
  { id := cfg.id
    currentFloor := s.currentFloor
    direction := s.direction
    doorState := s.doorState
    passengers := s.passengers
    capacity := cfg.capacity
    targetFloors := s.dropoffFloors ∪ s.pickupFloors }

/-- `startMovement(targetFloor, currentTime)` (private). -/
def startMovement (cfg : ElevatorConfig) (targetFloor : ℤ) (currentTime : ℚ)
    (s : EState) : EState :=
  let s' := { s with
    targetFloor := some targetFloor
    isMoving := true
    moveTimer := cfg.floorTravelTime
    actionStartTime := currentTime }
  if targetFloor > s.currentFloor then
    { s' with direction := .up }
  else if targetFloor < s.currentFloor then
    { s' with direction := .down }
  else s'

/-- `moveUp(currentTime)` (private): rejected while moving, while the doors
are not fully closed, or at the top floor. -/
def moveUp (cfg : ElevatorConfig) (currentTime : ℚ) (s : EState) :
    Bool × EState :=
  if s.isMoving = true ∨ s.doorState ≠ .closed then
    (false, s)
  else if s.currentFloor ≥ cfg.floorCount - 1 then
    (false, s)
  else
    (true, startMovement cfg (s.currentFloor + 1) currentTime s)

/-- `moveDown(currentTime)` (private): symmetric to `moveUp`, rejected at
floor 0. -/
def moveDown (cfg : ElevatorConfig) (currentTime : ℚ) (s : EState) :
    Bool × EState :=
  if s.isMoving = true ∨ s.doorState ≠ .closed then
    (false, s)
  else if s.currentFloor ≤ 0 then
    (false, s)
  else
    (true, startMovement cfg (s.currentFloor - 1) currentTime s)

/-- `openDoors(currentTime)` (private). -/
def openDoors (cfg : ElevatorConfig) (currentTime : ℚ) (s : EState) :
    Bool × EState :=
  if s.doorState = .open_ ∨ s.doorState = .opening ∨ s.isMoving = true then
    (false, s)
  else
    (true, { s with
      doorState := .opening
      doorTimer := cfg.doorOperationTime
      actionStartTime := currentTime })

/-- `closeDoors(currentTime)` (private). -/
def closeDoors (cfg : ElevatorConfig) (currentTime : ℚ) (s : EState) :
    Bool × EState :=
  if s.doorState = .closed ∨ s.doorState = .closing ∨ s.isMoving = true then
    (false, s)
  else
    (true, { s with
      doorState := .closing
      doorTimer := cfg.doorOperationTime
      actionStartTime := currentTime })

/-- `executeCommand(command, currentTime)`: id check, then dispatch on the
action; `WAIT` always succeeds with no state change, an unknown action is
a logged rejection. -/
def executeCommand (cfg : ElevatorConfig) (command : ElevatorCommand)
    (currentTime : ℚ) (s : EState) : Bool × EState :=
  if command.elevatorId ≠ cfg.id then
    (false, s)
  else
    match command.action with
    | .moveUp => moveUp cfg currentTime s
    | .moveDown => moveDown cfg currentTime s
    | .openDoors => openDoors cfg currentTime s
    | .closeDoors => closeDoors cfg currentTime s
    | .wait => (true, s)
    | .unknownAction _ => (false, s)

/-- `shouldStopAtCurrentFloor()`. -/
def shouldStopAtCurrentFloor (s : EState) : Bool :=
  s.currentFloor ∈ s.requestedFloors

/-- `updateDoorState(currentTime)` (private): on an expired door timer,
opening→open (starting the hold timer), closing→closed, and open doors
auto-close via `closeDoors`. -/
def updateDoorState (cfg : ElevatorConfig) (currentTime : ℚ) (s : EState) :
    EState :=
  if s.doorTimer ≤ 0 then
    match s.doorState with
    | .opening => { s with doorState := .open_, doorTimer := cfg.doorHoldTime }
    | .closing => { s with doorState := .closed }
    | .open_ => (closeDoors cfg currentTime s).2
    | .closed => s
  else s

/-- `updateMovement(currentTime)` (private): on an expired move timer,
arrive at `targetFloor` (the source dereferences `targetFloor!`; the
reachability invariant proves it is set whenever `isMoving`), then
auto-open the doors if the floor is requested. -/
def updateMovement (cfg : ElevatorConfig) (currentTime : ℚ) (s : EState) :
    EState :=
  if s.isMoving = true ∧ s.moveTimer ≤ 0 then
    let s' := { s with
      currentFloor := s.targetFloor.getD s.currentFloor
      targetFloor := none
      isMoving := false }
    if shouldStopAtCurrentFloor s' then (openDoors cfg currentTime s').2
    else s'
  else s

/-- `updateDirection()` (private): keep going if work remains ahead,
otherwise switch or go idle. -/
def updateDirection (s : EState) : EState :=
  if s.isMoving = true then s
  else if s.requestedFloors = ∅ then { s with direction := .idle }
  else
    if s.direction = .up ∧ ∃ f ∈ s.requestedFloors, f > s.currentFloor then s
    else if s.direction = .down ∧ ∃ f ∈ s.requestedFloors, f < s.currentFloor then s
    else if ∃ f ∈ s.requestedFloors, f > s.currentFloor then
      { s with direction := .up }
    else if ∃ f ∈ s.requestedFloors, f < s.currentFloor then
      { s with direction := .down }
    else { s with direction := .idle }

/-- `step(deltaTime, currentTime)`: decrement the running timers, then door
transitions, then movement, then direction recomputation. -/
def step (cfg : ElevatorConfig) (deltaTime currentTime : ℚ) (s : EState) :
    EState :=
  let s1 := { s with
    doorTimer := if s.doorTimer > 0 then s.doorTimer - deltaTime else s.doorTimer
    moveTimer := if s.moveTimer > 0 then s.moveTimer - deltaTime else s.moveTimer }
  let s2 := updateDoorState cfg currentTime s1
  let s3 := updateMovement cfg currentTime s2
  updateDirection s3

/-- `addPickupRequest(floor)`: in-range floors only. -/
def addPickupRequest (cfg : ElevatorConfig) (floor : ℤ) (s : EState) : EState :=
  if floor ≥ 0 ∧ floor < cfg.floorCount then
    { s with
      pickupFloors := insert floor s.pickupFloors
      requestedFloors := insert floor s.requestedFloors }
  else s

/-- `addDropoffRequest(floor)`: in-range floors only. -/
def addDropoffRequest (cfg : ElevatorConfig) (floor : ℤ) (s : EState) : EState :=
  if floor ≥ 0 ∧ floor < cfg.floorCount then
    { s with
      dropoffFloors := insert floor s.dropoffFloors
      requestedFloors := insert floor s.requestedFloors }
  else s

/-- The boarding loop of `boardPassengers`: for each candidate at the
current floor, while capacity remains, stamp `pickupTime`, append to the
onboard list, and register the destination as a dropoff request. -/
def boardLoop (cfg : ElevatorConfig) (currentTime : ℚ) :
    List Passenger → EState → List Passenger → EState × List Passenger
  | [], s, boarded => (s, boarded)
  | p :: ps, s, boarded =>
      if p.startFloor = s.currentFloor ∧ s.passengers.length < cfg.capacity then
        let p' := { p with pickupTime := some currentTime }
        let s' := addDropoffRequest cfg p.destinationFloor
          { s with passengers := s.passengers ++ [p'] }
        boardLoop cfg currentTime ps s' (boarded ++ [p'])
      else
        boardLoop cfg currentTime ps s boarded

/-- `boardPassengers(passengers, currentTime)`: no-op unless the doors are
open and the elevator is not full; then the boarding loop, then pickup
request cleanup for the current floor. -/
def boardPassengers (cfg : ElevatorConfig) (candidates : List Passenger)
    (currentTime : ℚ) (s : EState) : EState × List Passenger :=
  if s.doorState ≠ .open_ ∨ isElevatorFull (getState cfg s) = true then
    (s, [])
  else
    let (s', boarded) := boardLoop cfg currentTime candidates s []
    if boarded.length > 0 then
      let s'' := { s' with pickupFloors := s'.pickupFloors.erase s'.currentFloor }
      if s''.currentFloor ∈ s''.dropoffFloors then (s'', boarded)
      else ({ s'' with requestedFloors := s''.requestedFloors.erase s''.currentFloor },
            boarded)
    else (s', boarded)

/-- `disembarkPassengers(currentTime)`: no-op unless the doors are open;
the source's backward splice loop removes exactly the passengers whose
destination is the current floor and collects them in reverse index
order, stamping `dropoffTime`. -/
def disembarkPassengers (_cfg : ElevatorConfig) (currentTime : ℚ)
    (s : EState) : EState × List Passenger :=
  if s.doorState ≠ .open_ then
    (s, [])
  else
    let leaving := s.passengers.filter (fun p => p.destinationFloor = s.currentFloor)
    let disembarked := leaving.reverse.map
      (fun p => { p with dropoffTime := some currentTime })
    let s' := { s with
      passengers := s.passengers.filter (fun p => ¬ p.destinationFloor = s.currentFloor) }
    if disembarked.length > 0 then
      let s'' := { s' with dropoffFloors := s'.dropoffFloors.erase s'.currentFloor }
      if s''.currentFloor ∈ s''.pickupFloors then (s'', disembarked)
      else ({ s'' with requestedFloors := s''.requestedFloors.erase s''.currentFloor },
            disembarked)
    else (s', disembarked)

/-- Reachability: every state obtainable from a freshly constructed
`ElevatorCar` by any interleaving of the public mutating operations. -/
inductive Reachable (cfg : ElevatorConfig) : EState → Prop where
  | init (initialFloor : ℤ) : Reachable cfg (mkElevator cfg initialFloor)
  | step {s} (deltaTime currentTime : ℚ) (h : Reachable cfg s) :
      Reachable cfg (step cfg deltaTime currentTime s)
  | exec {s} (command : ElevatorCommand) (currentTime : ℚ) (h : Reachable cfg s) :
      Reachable cfg (executeCommand cfg command currentTime s).2
  | pickup {s} (floor : ℤ) (h : Reachable cfg s) :
      Reachable cfg (addPickupRequest cfg floor s)
  | dropoff {s} (floor : ℤ) (h : Reachable cfg s) :
      Reachable cfg (addDropoffRequest cfg floor s)
  | board {s} (candidates : List Passenger) (currentTime : ℚ) (h : Reachable cfg s) :
      Reachable cfg (boardPassengers cfg candidates currentTime s).1
  | disembark {s} (currentTime : ℚ) (h : Reachable cfg s) :
      Reachable cfg (disembarkPassengers cfg currentTime s).1

/-! ### Greedy dispatch — shared pieces

The repository has two revisions of `GreedyAlgorithm`.  The one at
packages/sim/src/algorithms.ts skips every non-idle elevator; the
revision with `getElevatorCommand` (JSDoc'd variant, close-doors as
priority 1) matches the spec's §4.5 policy.  Both are embedded. -/

/-- Comparison against the `minDistance` accumulator, which starts at
`Infinity` (modelled as `none`). -/
def ltInf (d : ℤ) : Option ℤ → Bool
  | none => true
  | some m => d < m

/-- The linear scan both revisions use: walk a list of floors, keeping the
first strictly-smaller distance to `cf`; the accumulator is
`(nearestFloor, minDistance)`. -/
def nearestScan (cf : ℤ) : List ℤ → Option ℤ × Option ℤ → Option ℤ × Option ℤ
  | [], acc => acc
  | f :: fs, (nf, md) =>
      if ltInf |f - cf| md then nearestScan cf fs (some f, some |f - cf|)
      else nearestScan cf fs (nf, md)

/-- `createMoveCommand(elevator, targetFloor)`: open doors when already at
the target, otherwise move toward it (identical in both revisions). -/
def createMoveCommand (e : Elevator) (targetFloor : ℤ) : Option ElevatorCommand :=
  if targetFloor = e.currentFloor then
    some { elevatorId := e.id, action := .openDoors }
  else if targetFloor > e.currentFloor then
    some { elevatorId := e.id, action := .moveUp }
  else
    some { elevatorId := e.id, action := .moveDown }

namespace Greedy

/-! `GreedyAlgorithm` as in packages/sim/src/algorithms.ts. -/

/-- `findNearestCall(elevator, waitingPassengers)`: early `null` when no
one is waiting, else scan the waiting passengers' start floors and then
the onboard passengers' destinations with a shared minimum. -/
def findNearestCall (e : Elevator) (waiting : List Passenger) : Option ℤ :=
  if waiting.isEmpty then none
  else
    let acc1 := nearestScan e.currentFloor (waiting.map (·.startFloor)) (none, none)
    (nearestScan e.currentFloor (e.passengers.map (·.destinationFloor)) acc1).1

/-- `onTick`: skip non-idle elevators; otherwise command toward the
nearest call, if any. -/
def onTick (elevators : List Elevator) (waiting : List Passenger)
    (_currentTime : ℚ) : List ElevatorCommand :=
  elevators.filterMap fun e =>
    if e.direction ≠ .idle then none
    else
      match findNearestCall e waiting with
      | none => none
      | some nearestCall => createMoveCommand e nearestCall

end Greedy

namespace GreedyV2

/-! `GreedyAlgorithm` revision with `getElevatorCommand`
(src/unnamed/part_014): close open doors first, then serve onboard
destinations, then answer the nearest call when idle. -/

/-- `findNearestDestination(elevator)`: nearest onboard destination. -/
def findNearestDestination (e : Elevator) : Option ℤ :=
  if e.passengers.isEmpty then none
  else
    (nearestScan e.currentFloor (e.passengers.map (·.destinationFloor))
      (none, none)).1

/-- `findNearestCall(elevator, waitingPassengers)`: nearest waiting
passenger's start floor. -/
def findNearestCall (e : Elevator) (waiting : List Passenger) : Option ℤ :=
  if waiting.isEmpty then none
  else
    (nearestScan e.currentFloor (waiting.map (·.startFloor)) (none, none)).1

/-- `getElevatorCommand(elevator, waitingPassengers)`: priority 1 close
open doors, priority 2 nearest onboard destination, priority 3 nearest
call when idle, else no command. -/
def getElevatorCommand (e : Elevator) (waiting : List Passenger) :
    Option ElevatorCommand :=
  if e.doorState = .open_ then
    some { elevatorId := e.id, action := .closeDoors }
  else
    let afterPassengers : Option ElevatorCommand :=
      if e.passengers.length > 0 then
        match findNearestDestination e with
        | some nd => createMoveCommand e nd
        | none => none
      else none
    match afterPassengers with
    | some c => some c
    | none =>
        if e.direction = .idle then
          match findNearestCall e waiting with
          | some nc => createMoveCommand e nc
          | none => none
        else none

/-- `onTick`: collect the per-elevator commands in elevator order. -/
def onTick (elevators : List Elevator) (waiting : List Passenger)
    (_currentTime : ℚ) : List ElevatorCommand :=
  elevators.filterMap fun e => getElevatorCommand e waiting

end GreedyV2

/-! ### spawner.ts — `PassengerSpawner` (and the parts of rng.ts it uses) -/

/-- Abstraction of the IEEE transcendental functions the spawner's Poisson
sampling calls (`Math.exp`, `Math.log`, `Math.sqrt`, `Math.cos`, and the
constant `Math.PI`); they are irrational-valued, so they enter the
rational model as an explicit parameter.  Every theorem below states the
exact property of this parameter it relies on (e.g. `exp 0 = 1`, which
holds for `Math.exp`). -/
structure FloatModel where
  exp : ℚ → ℚ
  log : ℚ → ℚ
  sqrt : ℚ → ℚ
  cos : ℚ → ℚ
  pi : ℚ

/-- JS `Math.round`: round half up. -/
def jsRound (q : ℚ) : ℤ := ⌊q + 1 / 2⌋

/-- JS indexing `l[i]` on an array of counts: out-of-range reads give
`undefined`, modelled as `none`. -/
def jsGet? (l : List ℕ) (i : ℤ) : Option ℕ :=
  if i < 0 then none else l.get? i.toNat

/-- The crowding test `existingWaitingCounts[startFloor] >= maxWaitingPerFloor`:
an out-of-range read is `undefined`, and `undefined >= n` is false. -/
def atCapacity (counts : List ℕ) (i : ℤ) (cap : ℕ) : Bool :=
  match jsGet? counts i with
  | some c => c ≥ cap
  | none => false

/-- `RandomUtils.generateId(rng, prefix)`: `Date.now()` (the `now`
parameter) plus `Math.floor(nextFloat() * 1000000)`. -/
def generateId (r : LCG) (now : ℕ) : PassengerId × LCG :=
  let (u, r') := r.nextFloat
  (⟨now, ⌊u * 1000000⌋⟩, r')

/-- Knuth's small-λ Poisson loop from `RandomUtils.poissonSpawn`:
`do { k++; p *= nextFloat() } while (p > l); return k - 1`.  The loop has
no structural bound, so it takes explicit fuel; exhausted fuel cuts the
loop (the theorems below only exercise runs that exit within fuel). -/
def knuthLoop (l : ℚ) : ℕ → ℚ → ℕ → LCG → ℕ × LCG
  | 0, _, k, r => (k - 1, r)
  | fuel + 1, p, k, r =>
      let (u, r') := r.nextFloat
      if p * u > l then knuthLoop l fuel (p * u) (k + 1) r'
      else (k + 1 - 1, r')

/-- `RandomUtils.normalRandom(rng, mean, stdDev)`: Box–Muller transform. -/
def normalRandom (fm : FloatModel) (r : LCG) (mean stdDev : ℚ) : ℚ × LCG :=
  let (u1, r1) := r.nextFloat
  let (u2, r2) := r1.nextFloat
  let z0 := fm.sqrt (-2 * fm.log u1) * fm.cos (2 * fm.pi * u2)
  (z0 * stdDev + mean, r2)

/-- `RandomUtils.poissonSpawn(rng, rate, deltaTime)`: Knuth's algorithm for
λ < 10, normal approximation (rounded, floored at zero) otherwise. -/
def poissonSpawn (fm : FloatModel) (fuel : ℕ) (r : LCG) (rate deltaTime : ℚ) :
    ℕ × LCG :=
  let lambda := rate * deltaTime
  if lambda < 10 then
    knuthLoop (fm.exp (-lambda)) fuel 1 0 r
  else
    let (z, r') := normalRandom fm r lambda (fm.sqrt lambda)
    ((max 0 (jsRound z)).toNat, r')

/-- `RandomUtils.weightedFloorSelection(rng, floorCount, gw, tw)`: the
per-floor weights array (`fill(1.0)`, ground floor `gw`, top floor `tw`;
for a single floor the top-floor write overwrites the ground-floor one,
matching the source's assignment order; faithful for `floorCount ≥ 1`). -/
def floorWeights (floorCount : ℤ) (gw tw : ℚ) : List ℚ :=
  (List.range floorCount.toNat).map fun i =>
    if i = floorCount.toNat - 1 then tw else if i = 0 then gw else 1

/-- The subtract-and-scan loop shared by `weightedFloorSelection` and
`selectFromCustomWeights`: return the first index where the running
remainder drops to ≤ 0. -/
def weightedScan : List ℚ → ℚ → ℕ → Option ℕ
  | [], _, _ => none
  | w :: ws, rnd, i =>
      if rnd - w ≤ 0 then some i else weightedScan ws (rnd - w) (i + 1)

/-- `weightedFloorSelection` body: draw `u·totalWeight`, scan, fall back to
the top floor. -/
def weightedFloorSelection (r : LCG) (floorCount : ℤ) (gw tw : ℚ) :
    ℤ × LCG :=
  let weights := floorWeights floorCount gw tw
  let totalWeight := weights.sum
  let (u, r') := r.nextFloat
  match weightedScan weights (u * totalWeight) 0 with
  | some i => ((i : ℤ), r')
  | none => (floorCount - 1, r')

/-- `SpawnPattern` enum from spawner.ts. -/
inductive SpawnPattern where
  | uniform
  | morningRush
  | eveningRush
  | lunchTime
  | randomBursts
  | custom
deriving DecidableEq, Repr

/-- `SpawnerConfig` from spawner.ts, after the constructor has filled the
defaults (minSpawnInterval 0.5, maxWaitingPerFloor 10, weights 2.0/1.5,
boundary probabilities 0.8/0.9); the `rng` is threaded separately. -/
structure SpawnerConfig where
  floorCount : ℤ
  spawnRate : ℚ
  minSpawnInterval : ℚ := 1 / 2
  maxWaitingPerFloor : ℕ := 10
  groundFloorWeight : ℚ := 2
  topFloorWeight : ℚ := 3 / 2
  groundFloorUpProbability : ℚ := 4 / 5
  topFloorDownProbability : ℚ := 9 / 10
deriving DecidableEq

/-- Mutable `PassengerSpawner` fields (`stats` inlined). -/
structure SpawnerState where
  rng : LCG
  lastSpawnTime : ℚ := 0
  totalRunTime : ℚ := 0
  currentPattern : SpawnPattern := .uniform
  customWeights : List ℚ := []
  totalSpawned : ℕ := 0
  timeSinceLastSpawn : ℚ := 0
deriving DecidableEq

/-- `selectFromCustomWeights()` (private). -/
def selectFromCustomWeights (cfg : SpawnerConfig) (weights : List ℚ)
    (r : LCG) : Except String (ℤ × LCG) :=
  if weights.isEmpty then
    r.nextIntMax cfg.floorCount
  else
    let totalWeight := weights.sum
    let (u, r') := r.nextFloat
    match weightedScan weights (u * totalWeight) 0 with
    | some i => .ok ((i : ℤ), r')
    | none => .ok ((weights.length : ℤ) - 1, r')

/-- `selectStartFloor()` (private): start-floor draw per spawn pattern. -/
def selectStartFloor (cfg : SpawnerConfig) (pattern : SpawnPattern)
    (customWeights : List ℚ) (r : LCG) : Except String (ℤ × LCG) :=
  match pattern with
  | .uniform => r.nextIntMax cfg.floorCount
  | .morningRush =>
      match r.nextBoolean (7 / 10) with
      | .error e => .error e
      | .ok (b, r1) => if b then .ok (0, r1) else r1.nextInt 1 cfg.floorCount
  | .eveningRush =>
      match r.nextBoolean (2 / 10) with
      | .error e => .error e
      | .ok (b, r1) => if b then .ok (0, r1) else r1.nextInt 1 cfg.floorCount
  | .lunchTime =>
      let middleStart := ⌊(cfg.floorCount : ℚ) * (3 / 10)⌋
      let middleEnd := ⌊(cfg.floorCount : ℚ) * (7 / 10)⌋
      r.nextInt middleStart (middleEnd + 1)
  | .randomBursts =>
      .ok (weightedFloorSelection r cfg.floorCount
        cfg.groundFloorWeight cfg.topFloorWeight)
  | .custom => selectFromCustomWeights cfg customWeights r

/-- `selectDestinationFloor(startFloor)` (private): boundary floors draw
from a fixed range on both branches of the probability test; middle
floors choose uniformly among the other floors. -/
def selectDestinationFloor (cfg : SpawnerConfig) (startFloor : ℤ) (r : LCG) :
    Except String (ℤ × LCG) :=
  let topFloor := cfg.floorCount - 1
  if startFloor = 0 then
    if cfg.floorCount = 1 then .ok (startFloor, r)
    else
      match r.nextBoolean cfg.groundFloorUpProbability with
      | .error e => .error e
      | .ok (b, r1) =>
          if b then r1.nextInt 1 cfg.floorCount
          else r1.nextInt 1 cfg.floorCount
  else if startFloor = topFloor then
    match r.nextBoolean cfg.topFloorDownProbability with
    | .error e => .error e
    | .ok (b, r1) =>
        if b then r1.nextIntMax topFloor
        else r1.nextIntMax topFloor
  else
    let availableFloors :=
      ((List.range cfg.floorCount.toNat).map (Int.ofNat)).filter (· ≠ startFloor)
    r.choice availableFloors

/-- `spawnSinglePassenger(currentTime, existingWaitingCounts)` (private):
pick a start floor, skip crowded floors, pick a destination, reject
`destination = start`, else build the passenger. -/
def spawnSinglePassenger (cfg : SpawnerConfig) (pattern : SpawnPattern)
    (customWeights : List ℚ) (now : ℕ) (currentTime : ℚ)
    (waitingCounts : List ℕ) (r : LCG) :
    Except String (Option Passenger × LCG) :=
  match selectStartFloor cfg pattern customWeights r with
  | .error e => .error e
  | .ok (startFloor, r1) =>
      if atCapacity waitingCounts startFloor cfg.maxWaitingPerFloor then
        .ok (none, r1)
      else
        match selectDestinationFloor cfg startFloor r1 with
        | .error e => .error e
        | .ok (destinationFloor, r2) =>
            if destinationFloor = startFloor then .ok (none, r2)
            else
              let (pid, r3) := generateId r2 now
              .ok (some { id := pid, startFloor := startFloor
                          destinationFloor := destinationFloor
                          requestTime := currentTime }, r3)

/-- The spawn loop of `nextTick`: run `spawnSinglePassenger` `count` times,
keeping successful spawns in order and counting them into the stats. -/
def spawnLoop (cfg : SpawnerConfig) (pattern : SpawnPattern)
    (customWeights : List ℚ) (now : ℕ) (currentTime : ℚ)
    (waitingCounts : List ℕ) :
    ℕ → LCG → List Passenger → ℕ → Except String (List Passenger × LCG × ℕ)
  | 0, r, acc, spawned => .ok (acc, r, spawned)
  | count + 1, r, acc, spawned =>
      match spawnSinglePassenger cfg pattern customWeights now currentTime
          waitingCounts r with
      | .error e => .error e
      | .ok (none, r') =>
          spawnLoop cfg pattern customWeights now currentTime waitingCounts
            count r' acc spawned
      | .ok (some p, r') =>
          spawnLoop cfg pattern customWeights now currentTime waitingCounts
            count r' (acc ++ [p]) (spawned + 1)

/-- `nextTick(deltaTime, currentTime, existingWaitingCounts)`: accumulate
the timers, rate-limit on `minSpawnInterval`, draw the Poisson spawn
count (`deltaTime` converted to minutes), run the spawn loop, and reset
the inter-spawn timer when anything spawned.  (The source also computes
`calculateSpawnProbability` into an unused local and logs; both are
effect-free on the returned data and are omitted.) -/
def nextTick (cfg : SpawnerConfig) (fm : FloatModel) (now : ℕ) (fuel : ℕ)
    (deltaTime currentTime : ℚ) (waitingCounts : List ℕ)
    (st : SpawnerState) : Except String (List Passenger × SpawnerState) :=
  let st1 := { st with
    totalRunTime := st.totalRunTime + deltaTime
    timeSinceLastSpawn := st.timeSinceLastSpawn + deltaTime }
  if st1.timeSinceLastSpawn < cfg.minSpawnInterval then
    .ok ([], st1)
  else
    let (spawnCount, r1) :=
      poissonSpawn fm fuel st1.rng cfg.spawnRate (deltaTime / 60)
    match spawnLoop cfg st1.currentPattern st1.customWeights now currentTime
        waitingCounts spawnCount r1 [] 0 with
    | .error e => .error e
    | .ok (passengers, r2, spawned) =>
        let st2 := { st1 with
          rng := r2
          totalSpawned := st1.totalSpawned + spawned }
        if passengers.length > 0 then
          .ok (passengers, { st2 with
            lastSpawnTime := currentTime
            timeSinceLastSpawn := 0 })
        else
          .ok (passengers, st2)

/-! ## Theorems -/

/-- C8: for every seed `s`, two RNG instances created with
`createSeededRNG s` produce identical output sequences for any identical
sequence of nextFloat/nextInt/nextIntMax/nextBoolean/choice/shuffle
operations (determinism per seed, as a two-run equality). -/
theorem rng_determinism_per_seed (s : ℚ) (ops : List RNGOp) (r1 r2 : LCG)
    (h1 : r1 = createSeededRNG s) (h2 : r2 = createSeededRNG s) :
    runOps ops r1 = runOps ops r2 := by
  subst h1; subst h2; rfl

/-- Witness for C8 at seed 42 and a concrete operation sequence. -/
theorem rng_determinism_per_seed_witness :
    runOps [RNGOp.nextFloat, RNGOp.nextInt 0 10, RNGOp.nextBoolean (1 / 2),
        RNGOp.choice [3, 7], RNGOp.shuffle [1, 2, 3]] (createSeededRNG 42) =
      runOps [RNGOp.nextFloat, RNGOp.nextInt 0 10, RNGOp.nextBoolean (1 / 2),
        RNGOp.choice [3, 7], RNGOp.shuffle [1, 2, 3]] (createSeededRNG 42) :=
  rng_determinism_per_seed 42
    [RNGOp.nextFloat, RNGOp.nextInt 0 10, RNGOp.nextBoolean (1 / 2),
      RNGOp.choice [3, 7], RNGOp.shuffle [1, 2, 3]] _ _ rfl rfl

lemma moveUp_reject_eq {cfg : ElevatorConfig} {t : ℚ} {s : EState}
    (h : (moveUp cfg t s).1 = false) : (moveUp cfg t s).2 = s := by
  unfold moveUp at h ⊢
  split at h
  · rename_i hc; simp [hc]
  · rename_i hc
    split at h
    · rename_i hc2; simp [hc, hc2]
    · simp at h

lemma moveDown_reject_eq {cfg : ElevatorConfig} {t : ℚ} {s : EState}
    (h : (moveDown cfg t s).1 = false) : (moveDown cfg t s).2 = s := by
  unfold moveDown at h ⊢
  split at h
  · rename_i hc; simp [hc]
  · rename_i hc
    split at h
    · rename_i hc2; simp [hc, hc2]
    · simp at h

lemma openDoors_reject_eq {cfg : ElevatorConfig} {t : ℚ} {s : EState}
    (h : (openDoors cfg t s).1 = false) : (openDoors cfg t s).2 = s := by
  unfold openDoors at h ⊢
  split at h
  · rename_i hc; simp [hc]
  · simp at h

lemma closeDoors_reject_eq {cfg : ElevatorConfig} {t : ℚ} {s : EState}
    (h : (closeDoors cfg t s).1 = false) : (closeDoors cfg t s).2 = s := by
  unfold closeDoors at h ⊢
  split at h
  · rename_i hc; simp [hc]
  · simp at h

/-- C3: whenever `executeCommand` returns `false` (a rejected move or door
command, an unknown action, or a mismatched elevator id), the state
snapshot `getState` is unchanged. -/
theorem executeCommand_reject_unchanged (cfg : ElevatorConfig)
    (command : ElevatorCommand) (currentTime : ℚ) (s : EState)
    (h : (executeCommand cfg command currentTime s).1 = false) :
    getState cfg (executeCommand cfg command currentTime s).2 = getState cfg s := by
  have hstate : (executeCommand cfg command currentTime s).2 = s := by
    unfold executeCommand at h ⊢
    split at h
    · rename_i hc; simp [hc]
    · rename_i hc
      rw [if_neg hc]
      cases hA : command.action with
      | moveUp => rw [hA] at h; exact moveUp_reject_eq h
      | moveDown => rw [hA] at h; exact moveDown_reject_eq h
      | openDoors => rw [hA] at h; exact openDoors_reject_eq h
      | closeDoors => rw [hA] at h; exact closeDoors_reject_eq h
      | wait => rw [hA] at h
      | unknownAction raw => rfl
  rw [hstate]

/-- Witness for C3: `MOVE_DOWN` at floor 0 is rejected and leaves the
snapshot unchanged. -/
theorem executeCommand_reject_unchanged_witness :
    getState ⟨"E1", 8, 3 / 2, 3 / 2, 2, 10⟩
        (executeCommand ⟨"E1", 8, 3 / 2, 3 / 2, 2, 10⟩
          ⟨"E1", .moveDown, none⟩ 0 (mkElevator ⟨"E1", 8, 3 / 2, 3 / 2, 2, 10⟩ 0)).2 =
      getState ⟨"E1", 8, 3 / 2, 3 / 2, 2, 10⟩
        (mkElevator ⟨"E1", 8, 3 / 2, 3 / 2, 2, 10⟩ 0) :=
  executeCommand_reject_unchanged _ _ _ _ (by decide)

lemma addDropoffRequest_currentFloor (cfg : ElevatorConfig) (f : ℤ) (s : EState) :
    (addDropoffRequest cfg f s).currentFloor = s.currentFloor := by
  unfold addDropoffRequest; split <;> rfl

lemma addDropoffRequest_passengers (cfg : ElevatorConfig) (f : ℤ) (s : EState) :
    (addDropoffRequest cfg f s).passengers = s.passengers := by
  unfold addDropoffRequest; split <;> rfl

lemma boardLoop_currentFloor (cfg : ElevatorConfig) (t : ℚ) :
    ∀ (ps : List Passenger) (s : EState) (b : List Passenger),
      (boardLoop cfg t ps s b).1.currentFloor = s.currentFloor
  | [], _, _ => rfl
  | p :: ps, s, b => by
      unfold boardLoop
      split
      · rw [boardLoop_currentFloor cfg t ps _ _, addDropoffRequest_currentFloor]
      · exact boardLoop_currentFloor cfg t ps s b

lemma boardLoop_mem (cfg : ElevatorConfig) (t : ℚ) :
    ∀ (ps : List Passenger) (s : EState) (b : List Passenger) (p : Passenger),
      p ∈ (boardLoop cfg t ps s b).2 →
      p ∈ b ∨ ∃ q ∈ ps, p = { q with pickupTime := some t } ∧
        q.startFloor = s.currentFloor
  | [], _, _, _, hp => Or.inl hp
  | q :: ps, s, b, p, hp => by
      unfold boardLoop at hp
      split at hp
      · rename_i hcond
        have hcf : (addDropoffRequest cfg q.destinationFloor
            { s with passengers :=
              s.passengers ++ [{ q with pickupTime := some t }] }).currentFloor =
            s.currentFloor := by
          rw [addDropoffRequest_currentFloor]
        rcases boardLoop_mem cfg t ps _ _ p hp with hb | ⟨r, hr, he, hf⟩
        · rcases List.mem_append.1 hb with hb' | hb'
          · exact Or.inl hb'
          · refine Or.inr ⟨q, List.mem_cons_self q ps, ?_, hcond.1⟩
            simpa using hb'
        · exact Or.inr ⟨r, List.mem_cons_of_mem q hr, he, by rw [← hcf]; exact hf⟩
      · rcases boardLoop_mem cfg t ps s b p hp with hb | ⟨r, hr, he, hf⟩
        · exact Or.inl hb
        · exact Or.inr ⟨r, List.mem_cons_of_mem q hr, he, hf⟩

lemma boardLoop_length (cfg : ElevatorConfig) (t : ℚ) :
    ∀ (ps : List Passenger) (s : EState) (b : List Passenger),
      (boardLoop cfg t ps s b).2.length + s.passengers.length =
        b.length + (boardLoop cfg t ps s b).1.passengers.length
  | [], _, _ => by simp [boardLoop]
  | q :: ps, s, b => by
      unfold boardLoop
      split
      · rename_i hcond
        have := boardLoop_length cfg t ps
          (addDropoffRequest cfg q.destinationFloor
            { s with passengers := s.passengers ++ [{ q with pickupTime := some t }] })
          (b ++ [{ q with pickupTime := some t }])
        rw [addDropoffRequest_passengers] at this
        simp only [List.length_append, List.length_cons, List.length_nil] at this ⊢
        omega
      · exact boardLoop_length cfg t ps s b

lemma boardLoop_capacity (cfg : ElevatorConfig) (t : ℚ) :
    ∀ (ps : List Passenger) (s : EState) (b : List Passenger),
      s.passengers.length ≤ cfg.capacity →
      (boardLoop cfg t ps s b).1.passengers.length ≤ cfg.capacity
  | [], _, _, h => h
  | q :: ps, s, b, h => by
      unfold boardLoop
      split
      · rename_i hcond
        refine boardLoop_capacity cfg t ps _ _ ?_
        rw [addDropoffRequest_passengers]
        simp only [List.length_append, List.length_cons, List.length_nil]
        omega
      · exact boardLoop_capacity cfg t ps s b h

lemma boardPassengers_snd (cfg : ElevatorConfig) (cands : List Passenger)
    (t : ℚ) (s : EState)
    (h : ¬(s.doorState ≠ .open_ ∨ isElevatorFull (getState cfg s) = true)) :
    (boardPassengers cfg cands t s).2 = (boardLoop cfg t cands s []).2 := by
  unfold boardPassengers
  rw [if_neg h]
  rcases hb : boardLoop cfg t cands s [] with ⟨s', boarded⟩
  simp only [hb]
  split
  · split <;> rfl
  · rfl

/-- C4: every boarded passenger comes from the candidate list with
`pickupTime` stamped to `currentTime` and starts at the elevator's current
floor, and the number of boarded passengers never exceeds the remaining
capacity. -/
theorem boardPassengers_conservation (cfg : ElevatorConfig)
    (candidates : List Passenger) (currentTime : ℚ) (s : EState) :
    (∀ p ∈ (boardPassengers cfg candidates currentTime s).2,
      (∃ q ∈ candidates, p = { q with pickupTime := some currentTime }) ∧
        p.startFloor = s.currentFloor) ∧
    (boardPassengers cfg candidates currentTime s).2.length ≤
      cfg.capacity - s.passengers.length := by
  by_cases hg : s.doorState ≠ .open_ ∨ isElevatorFull (getState cfg s) = true
  · have hnil : (boardPassengers cfg candidates currentTime s).2 = [] := by
      unfold boardPassengers
      rw [if_pos hg]
    rw [hnil]
    simp
  · have hsnd := boardPassengers_snd cfg candidates currentTime s hg
    have hnotfull : s.passengers.length < cfg.capacity := by
      simp only [isElevatorFull, getState, not_or, decide_eq_true_eq] at hg
      omega
    rw [hsnd]
    constructor
    · intro p hp
      rcases boardLoop_mem cfg currentTime candidates s [] p hp with hfalse | ⟨q, hq, he, hf⟩
      · simp at hfalse
      · exact ⟨⟨q, hq, he⟩, by rw [he]; exact hf⟩
    · have hlen := boardLoop_length cfg currentTime candidates s []
      have hcap := boardLoop_capacity cfg currentTime candidates s [] (le_of_lt hnotfull)
      simp only [List.length_nil] at hlen
      omega

/-- Common concrete elevator configuration for the witnesses below:
id "E1", capacity 8, 1.5 s travel and door operation, 2 s hold, 10 floors. -/
def cfgW : ElevatorConfig :=
  { id := "E1", capacity := 8, floorTravelTime := 3 / 2
    doorOperationTime := 3 / 2, doorHoldTime := 2, floorCount := 10 }

/-- Concrete waiting passenger at floor 0 heading to floor 3. -/
def pW : Passenger :=
  { id := ⟨0, 0⟩, startFloor := 0, destinationFloor := 3, requestTime := 0 }

/-- Freshly constructed elevator at floor 0 whose doors are open. -/
def sOpenW : EState := { mkElevator cfgW 0 with doorState := .open_ }

/-- Witness for C4: doors open at floor 0, one candidate waiting there. -/
theorem boardPassengers_conservation_witness :
    (∀ p ∈ (boardPassengers cfgW [pW] 5 sOpenW).2,
      (∃ q ∈ [pW], p = { q with pickupTime := some 5 }) ∧
        p.startFloor = sOpenW.currentFloor) ∧
    (boardPassengers cfgW [pW] 5 sOpenW).2.length ≤
      cfgW.capacity - sOpenW.passengers.length :=
  boardPassengers_conservation cfgW [pW] 5 sOpenW

/-! ### Reachability invariants for C1 and C2 -/

/-- Bounds invariant: the current floor is in `[0, floorCount-1]`, the
onboard count respects capacity, and any in-flight movement target is in
range (needed to re-establish the floor bound on arrival). -/
def InvBounds (cfg : ElevatorConfig) (s : EState) : Prop :=
  0 ≤ s.currentFloor ∧ s.currentFloor ≤ cfg.floorCount - 1 ∧
  s.passengers.length ≤ cfg.capacity ∧
  ∀ tf ∈ s.targetFloor, 0 ≤ tf ∧ tf ≤ cfg.floorCount - 1

/-- Door/move exclusion invariant: while moving, the doors are fully
closed (which rules out both "open" and "opening"). -/
def InvDoor (s : EState) : Prop :=
  s.isMoving = true → s.doorState = .closed

lemma invBounds_of_eq {cfg : ElevatorConfig} {s s' : EState}
    (h1 : s'.currentFloor = s.currentFloor) (h2 : s'.passengers = s.passengers)
    (h3 : s'.targetFloor = s.targetFloor) (h : InvBounds cfg s) :
    InvBounds cfg s' := by
  unfold InvBounds at *
  rw [h1, h2, h3]
  exact h

lemma invDoor_of_eq {s s' : EState} (h1 : s'.isMoving = s.isMoving)
    (h2 : s'.doorState = s.doorState) (h : InvDoor s) : InvDoor s' := by
  unfold InvDoor at *
  rw [h1, h2]
  exact h

lemma startMovement_fields (cfg : ElevatorConfig) (tf : ℤ) (t : ℚ) (s : EState) :
    (startMovement cfg tf t s).currentFloor = s.currentFloor ∧
    (startMovement cfg tf t s).passengers = s.passengers ∧
    (startMovement cfg tf t s).targetFloor = some tf ∧
    (startMovement cfg tf t s).doorState = s.doorState ∧
    (startMovement cfg tf t s).isMoving = true := by
  unfold startMovement
  split
  · exact ⟨rfl, rfl, rfl, rfl, rfl⟩
  · split
    · exact ⟨rfl, rfl, rfl, rfl, rfl⟩
    · exact ⟨rfl, rfl, rfl, rfl, rfl⟩

lemma openDoors_proj (cfg : ElevatorConfig) (t : ℚ) (s : EState) :
    (openDoors cfg t s).2.currentFloor = s.currentFloor ∧
    (openDoors cfg t s).2.passengers = s.passengers ∧
    (openDoors cfg t s).2.targetFloor = s.targetFloor ∧
    (openDoors cfg t s).2.isMoving = s.isMoving := by
  unfold openDoors
  split <;> exact ⟨rfl, rfl, rfl, rfl⟩

lemma closeDoors_proj (cfg : ElevatorConfig) (t : ℚ) (s : EState) :
    (closeDoors cfg t s).2.currentFloor = s.currentFloor ∧
    (closeDoors cfg t s).2.passengers = s.passengers ∧
    (closeDoors cfg t s).2.targetFloor = s.targetFloor ∧
    (closeDoors cfg t s).2.isMoving = s.isMoving := by
  unfold closeDoors
  split <;> exact ⟨rfl, rfl, rfl, rfl⟩

lemma invBounds_moveUp (cfg : ElevatorConfig) (t : ℚ) (s : EState)
    (h : InvBounds cfg s) : InvBounds cfg (moveUp cfg t s).2 := by
  unfold moveUp
  split
  · exact h
  · split
    · exact h
    · rename_i hc2
      obtain ⟨f1, f2, f3, -, -⟩ := startMovement_fields cfg (s.currentFloor + 1) t s
      obtain ⟨h0, h1, h2, -⟩ := h
      refine ⟨?_, ?_, ?_, ?_⟩
      · rw [f1]; exact h0
      · rw [f1]; omega
      · rw [f2]; exact h2
      · rw [f3]
        intro tf htf
        simp only [Option.mem_def, Option.some.injEq] at htf
        omega

lemma invBounds_moveDown (cfg : ElevatorConfig) (t : ℚ) (s : EState)
    (h : InvBounds cfg s) : InvBounds cfg (moveDown cfg t s).2 := by
  unfold moveDown
  split
  · exact h
  · split
    · exact h
    · rename_i hc2
      obtain ⟨f1, f2, f3, -, -⟩ := startMovement_fields cfg (s.currentFloor - 1) t s
      obtain ⟨h0, h1, h2, -⟩ := h
      refine ⟨?_, ?_, ?_, ?_⟩
      · rw [f1]; omega
      · rw [f1]; omega
      · rw [f2]; exact h2
      · rw [f3]
        intro tf htf
        simp only [Option.mem_def, Option.some.injEq] at htf
        omega

lemma invDoor_moveUp (cfg : ElevatorConfig) (t : ℚ) (s : EState)
    (h : InvDoor s) : InvDoor (moveUp cfg t s).2 := by
  unfold moveUp
  split
  · exact h
  · rename_i hc1
    split
    · exact h
    · obtain ⟨-, -, -, f4, f5⟩ := startMovement_fields cfg (s.currentFloor + 1) t s
      intro _
      rw [f4]
      push_neg at hc1
      exact hc1.2

lemma invDoor_moveDown (cfg : ElevatorConfig) (t : ℚ) (s : EState)
    (h : InvDoor s) : InvDoor (moveDown cfg t s).2 := by
  unfold moveDown
  split
  · exact h
  · rename_i hc1
    split
    · exact h
    · obtain ⟨-, -, -, f4, f5⟩ := startMovement_fields cfg (s.currentFloor - 1) t s
      intro _
      rw [f4]
      push_neg at hc1
      exact hc1.2

lemma invDoor_openDoors (cfg : ElevatorConfig) (t : ℚ) (s : EState)
    (h : InvDoor s) : InvDoor (openDoors cfg t s).2 := by
  unfold openDoors
  split
  · exact h
  · rename_i hc
    intro hm
    push_neg at hc
    exact absurd hm hc.2.2

lemma invDoor_closeDoors (cfg : ElevatorConfig) (t : ℚ) (s : EState)
    (h : InvDoor s) : InvDoor (closeDoors cfg t s).2 := by
  unfold closeDoors
  split
  · exact h
  · rename_i hc
    intro hm
    push_neg at hc
    exact absurd hm hc.2.2

lemma invBounds_updateDoorState (cfg : ElevatorConfig) (t : ℚ) (s : EState)
    (h : InvBounds cfg s) : InvBounds cfg (updateDoorState cfg t s) := by
  unfold updateDoorState
  split
  · split
    · exact invBounds_of_eq rfl rfl rfl h
    · exact invBounds_of_eq rfl rfl rfl h
    · obtain ⟨f1, f2, f3, -⟩ := closeDoors_proj cfg t s
      exact invBounds_of_eq f1 f2 f3 h
    · exact h
  · exact h

lemma invDoor_updateDoorState (cfg : ElevatorConfig) (t : ℚ) (s : EState)
    (h : InvDoor s) : InvDoor (updateDoorState cfg t s) := by
  unfold updateDoorState
  split
  · split
    · rename_i heq
      intro hm
      have := h hm
      rw [heq] at this
      cases this
    · intro _; rfl
    · exact invDoor_closeDoors cfg t s h
    · exact h
  · exact h

lemma invBounds_updateMovement (cfg : ElevatorConfig) (t : ℚ) (s : EState)
    (h : InvBounds cfg s) : InvBounds cfg (updateMovement cfg t s) := by
  unfold updateMovement
  split
  · obtain ⟨h0, h1, h2, h3⟩ := h
    have hcf : 0 ≤ s.targetFloor.getD s.currentFloor ∧
        s.targetFloor.getD s.currentFloor ≤ cfg.floorCount - 1 := by
      cases ht : s.targetFloor with
      | none => exact ⟨h0, h1⟩
      | some tf => exact h3 tf (by simp [ht])
    dsimp only
    split
    · obtain ⟨g1, g2, g3, -⟩ := openDoors_proj cfg t _
      refine ⟨?_, ?_, ?_, ?_⟩
      · rw [g1]; exact hcf.1
      · rw [g1]; exact hcf.2
      · rw [g2]; exact h2
      · rw [g3]; intro tf htf; cases htf
    · exact ⟨hcf.1, hcf.2, h2, fun tf htf => by cases htf⟩
  · exact h

lemma invDoor_updateMovement (cfg : ElevatorConfig) (t : ℚ) (s : EState)
    (h : InvDoor s) : InvDoor (updateMovement cfg t s) := by
  unfold updateMovement
  split
  · dsimp only
    split
    · refine invDoor_openDoors cfg t _ ?_
      intro hm
      cases hm
    · intro hm
      cases hm
  · exact h

lemma updateDirection_proj (s : EState) :
    (updateDirection s).currentFloor = s.currentFloor ∧
    (updateDirection s).passengers = s.passengers ∧
    (updateDirection s).targetFloor = s.targetFloor ∧
    (updateDirection s).doorState = s.doorState ∧
    (updateDirection s).isMoving = s.isMoving := by
  unfold updateDirection
  repeat' first
  | exact ⟨rfl, rfl, rfl, rfl, rfl⟩
  | split

lemma invBounds_step (cfg : ElevatorConfig) (dt t : ℚ) (s : EState)
    (h : InvBounds cfg s) : InvBounds cfg (step cfg dt t s) := by
  unfold step
  obtain ⟨g1, g2, g3, -, -⟩ := updateDirection_proj
    (updateMovement cfg t (updateDoorState cfg t
      { s with
        doorTimer := if s.doorTimer > 0 then s.doorTimer - dt else s.doorTimer
        moveTimer := if s.moveTimer > 0 then s.moveTimer - dt else s.moveTimer }))
  refine invBounds_of_eq g1 g2 g3 ?_
  refine invBounds_updateMovement cfg t _ ?_
  refine invBounds_updateDoorState cfg t _ ?_
  exact invBounds_of_eq rfl rfl rfl h

lemma invDoor_step (cfg : ElevatorConfig) (dt t : ℚ) (s : EState)
    (h : InvDoor s) : InvDoor (step cfg dt t s) := by
  unfold step
  obtain ⟨-, -, -, g4, g5⟩ := updateDirection_proj
    (updateMovement cfg t (updateDoorState cfg t
      { s with
        doorTimer := if s.doorTimer > 0 then s.doorTimer - dt else s.doorTimer
        moveTimer := if s.moveTimer > 0 then s.moveTimer - dt else s.moveTimer }))
  refine invDoor_of_eq g5 g4 ?_
  refine invDoor_updateMovement cfg t _ ?_
  refine invDoor_updateDoorState cfg t _ ?_
  exact invDoor_of_eq rfl rfl h

lemma addDropoffRequest_proj (cfg : ElevatorConfig) (f : ℤ) (s : EState) :
    (addDropoffRequest cfg f s).targetFloor = s.targetFloor ∧
    (addDropoffRequest cfg f s).doorState = s.doorState ∧
    (addDropoffRequest cfg f s).isMoving = s.isMoving := by
  unfold addDropoffRequest
  split <;> exact ⟨rfl, rfl, rfl⟩

lemma boardLoop_proj (cfg : ElevatorConfig) (t : ℚ) :
    ∀ (ps : List Passenger) (s : EState) (b : List Passenger),
      (boardLoop cfg t ps s b).1.targetFloor = s.targetFloor ∧
      (boardLoop cfg t ps s b).1.doorState = s.doorState ∧
      (boardLoop cfg t ps s b).1.isMoving = s.isMoving
  | [], _, _ => ⟨rfl, rfl, rfl⟩
  | q :: ps, s, b => by
      unfold boardLoop
      split
      · obtain ⟨g1, g2, g3⟩ := boardLoop_proj cfg t ps
          (addDropoffRequest cfg q.destinationFloor
            { s with passengers := s.passengers ++ [{ q with pickupTime := some t }] })
          (b ++ [{ q with pickupTime := some t }])
        obtain ⟨a1, a2, a3⟩ := addDropoffRequest_proj cfg q.destinationFloor
          { s with passengers := s.passengers ++ [{ q with pickupTime := some t }] }
        exact ⟨g1.trans a1, g2.trans a2, g3.trans a3⟩
      · exact boardLoop_proj cfg t ps s b

lemma invBounds_board (cfg : ElevatorConfig) (cands : List Passenger) (t : ℚ)
    (s : EState) (h : InvBounds cfg s) :
    InvBounds cfg (boardPassengers cfg cands t s).1 := by
  unfold boardPassengers
  split
  · exact h
  · rcases hb : boardLoop cfg t cands s [] with ⟨s', boarded⟩
    have hcf : s'.currentFloor = s.currentFloor := by
      have := boardLoop_currentFloor cfg t cands s []
      rw [hb] at this
      exact this
    have hproj := boardLoop_proj cfg t cands s []
    rw [hb] at hproj
    have hcap : s'.passengers.length ≤ cfg.capacity := by
      have := boardLoop_capacity cfg t cands s [] h.2.2.1
      rw [hb] at this
      exact this
    have hInv' : InvBounds cfg s' := by
      refine ⟨?_, ?_, hcap, ?_⟩
      · rw [hcf]; exact h.1
      · rw [hcf]; exact h.2.1
      · rw [hproj.1]; exact h.2.2.2
    simp only [hb]
    split
    · split
      · exact invBounds_of_eq rfl rfl rfl hInv'
      · exact invBounds_of_eq rfl rfl rfl hInv'
    · exact hInv'

lemma invDoor_board (cfg : ElevatorConfig) (cands : List Passenger) (t : ℚ)
    (s : EState) (h : InvDoor s) :
    InvDoor (boardPassengers cfg cands t s).1 := by
  unfold boardPassengers
  split
  · exact h
  · rcases hb : boardLoop cfg t cands s [] with ⟨s', boarded⟩
    have hproj := boardLoop_proj cfg t cands s []
    rw [hb] at hproj
    have hInv' : InvDoor s' := invDoor_of_eq hproj.2.2 hproj.2.1 h
    simp only [hb]
    split
    · split
      · exact invDoor_of_eq rfl rfl hInv'
      · exact invDoor_of_eq rfl rfl hInv'
    · exact hInv'

lemma invBounds_disembark (cfg : ElevatorConfig) (t : ℚ) (s : EState)
    (h : InvBounds cfg s) : InvBounds cfg (disembarkPassengers cfg t s).1 := by
  unfold disembarkPassengers
  split
  · exact h
  · obtain ⟨h0, h1, h2, h3⟩ := h
    dsimp only
    split
    · split
      · exact ⟨h0, h1, le_trans (List.length_filter_le _ _) h2, h3⟩
      · exact ⟨h0, h1, le_trans (List.length_filter_le _ _) h2, h3⟩
    · exact ⟨h0, h1, le_trans (List.length_filter_le _ _) h2, h3⟩

lemma invDoor_disembark (cfg : ElevatorConfig) (t : ℚ) (s : EState)
    (h : InvDoor s) : InvDoor (disembarkPassengers cfg t s).1 := by
  unfold disembarkPassengers
  split
  · exact h
  · dsimp only
    split
    · split
      · exact invDoor_of_eq rfl rfl h
      · exact invDoor_of_eq rfl rfl h
    · exact invDoor_of_eq rfl rfl h

lemma invBounds_addPickup (cfg : ElevatorConfig) (f : ℤ) (s : EState)
    (h : InvBounds cfg s) : InvBounds cfg (addPickupRequest cfg f s) := by
  unfold addPickupRequest
  split
  · exact invBounds_of_eq rfl rfl rfl h
  · exact h

lemma invBounds_addDropoff (cfg : ElevatorConfig) (f : ℤ) (s : EState)
    (h : InvBounds cfg s) : InvBounds cfg (addDropoffRequest cfg f s) := by
  unfold addDropoffRequest
  split
  · exact invBounds_of_eq rfl rfl rfl h
  · exact h

lemma invDoor_addPickup (cfg : ElevatorConfig) (f : ℤ) (s : EState)
    (h : InvDoor s) : InvDoor (addPickupRequest cfg f s) := by
  unfold addPickupRequest
  split
  · exact invDoor_of_eq rfl rfl h
  · exact h

lemma invDoor_addDropoff (cfg : ElevatorConfig) (f : ℤ) (s : EState)
    (h : InvDoor s) : InvDoor (addDropoffRequest cfg f s) := by
  unfold addDropoffRequest
  split
  · exact invDoor_of_eq rfl rfl h
  · exact h

lemma invBounds_exec (cfg : ElevatorConfig) (c : ElevatorCommand) (t : ℚ)
    (s : EState) (h : InvBounds cfg s) :
    InvBounds cfg (executeCommand cfg c t s).2 := by
  unfold executeCommand
  split
  · exact h
  · cases c.action
    · exact invBounds_moveUp cfg t s h
    · exact invBounds_moveDown cfg t s h
    · obtain ⟨g1, g2, g3, -⟩ := openDoors_proj cfg t s
      exact invBounds_of_eq g1 g2 g3 h
    · obtain ⟨g1, g2, g3, -⟩ := closeDoors_proj cfg t s
      exact invBounds_of_eq g1 g2 g3 h
    · exact h
    · exact h

lemma invDoor_exec (cfg : ElevatorConfig) (c : ElevatorCommand) (t : ℚ)
    (s : EState) (h : InvDoor s) : InvDoor (executeCommand cfg c t s).2 := by
  unfold executeCommand
  split
  · exact h
  · cases c.action
    · exact invDoor_moveUp cfg t s h
    · exact invDoor_moveDown cfg t s h
    · exact invDoor_openDoors cfg t s h
    · exact invDoor_closeDoors cfg t s h
    · exact h
    · exact h

lemma invBounds_init (cfg : ElevatorConfig) (i : ℤ)
    (hFC : 1 ≤ cfg.floorCount) : InvBounds cfg (mkElevator cfg i) := by
  refine ⟨?_, ?_, by simp [mkElevator], ?_⟩
  · simp only [mkElevator]
    omega
  · simp only [mkElevator]
    omega
  · intro tf htf
    simp [mkElevator] at htf

lemma invDoor_init (cfg : ElevatorConfig) (i : ℤ) :
    InvDoor (mkElevator cfg i) := by
  intro hm
  simp [mkElevator] at hm

lemma reachable_invBounds {cfg : ElevatorConfig} {s : EState}
    (h : Reachable cfg s) (hFC : 1 ≤ cfg.floorCount) : InvBounds cfg s := by
  induction h with
  | init i => exact invBounds_init cfg i hFC
  | step dt t _ ih => exact invBounds_step cfg dt t _ ih
  | exec c t _ ih => exact invBounds_exec cfg c t _ ih
  | pickup f _ ih => exact invBounds_addPickup cfg f _ ih
  | dropoff f _ ih => exact invBounds_addDropoff cfg f _ ih
  | board cands t _ ih => exact invBounds_board cfg cands t _ ih
  | disembark t _ ih => exact invBounds_disembark cfg t _ ih

lemma reachable_invDoor {cfg : ElevatorConfig} {s : EState}
    (h : Reachable cfg s) : InvDoor s := by
  induction h with
  | init i => exact invDoor_init cfg i
  | step dt t _ ih => exact invDoor_step cfg dt t _ ih
  | exec c t _ ih => exact invDoor_exec cfg c t _ ih
  | pickup f _ ih => exact invDoor_addPickup cfg f _ ih
  | dropoff f _ ih => exact invDoor_addDropoff cfg f _ ih
  | board cands t _ ih => exact invDoor_board cfg cands t _ ih
  | disembark t _ ih => exact invDoor_disembark cfg t _ ih

/-- C1: in every state reachable from the initial state by any sequence of
`step`, `executeCommand`, `addPickupRequest`, `addDropoffRequest`,
`boardPassengers`, and `disembarkPassengers` calls (for a building with at
least one floor), the current floor is in `[0, floorCount-1]` and the
onboard passenger count never exceeds the capacity. -/
theorem elevator_bounds_invariant (cfg : ElevatorConfig) (s : EState)
    (h : Reachable cfg s) (hFC : 1 ≤ cfg.floorCount) :
    0 ≤ s.currentFloor ∧ s.currentFloor ≤ cfg.floorCount - 1 ∧
      s.passengers.length ≤ cfg.capacity := by
  obtain ⟨h0, h1, h2, -⟩ := reachable_invBounds h hFC
  exact ⟨h0, h1, h2⟩

/-- Witness for C1: one step after construction at floor 0. -/
theorem elevator_bounds_invariant_witness :
    0 ≤ (step cfgW 1 1 (mkElevator cfgW 0)).currentFloor ∧
    (step cfgW 1 1 (mkElevator cfgW 0)).currentFloor ≤ cfgW.floorCount - 1 ∧
    (step cfgW 1 1 (mkElevator cfgW 0)).passengers.length ≤ cfgW.capacity :=
  elevator_bounds_invariant cfgW _
    (Reachable.step 1 1 (Reachable.init 0)) (by decide)

/-- C2: no reachable state is simultaneously moving and with doors open or
opening. -/
theorem door_move_mutual_exclusion (cfg : ElevatorConfig) (s : EState)
    (h : Reachable cfg s) :
    ¬(s.isMoving = true ∧ (s.doorState = .open_ ∨ s.doorState = .opening)) := by
  rintro ⟨hm, hds⟩
  have hclosed := reachable_invDoor h hm
  rcases hds with h1 | h1 <;> rw [hclosed] at h1 <;> cases h1

/-- Witness for C2: executing `MOVE_UP` right after construction at
floor 2. -/
theorem door_move_mutual_exclusion_witness :
    ¬((executeCommand cfgW ⟨"E1", .moveUp, none⟩ 0 (mkElevator cfgW 2)).2.isMoving = true ∧
      ((executeCommand cfgW ⟨"E1", .moveUp, none⟩ 0 (mkElevator cfgW 2)).2.doorState = .open_ ∨
       (executeCommand cfgW ⟨"E1", .moveUp, none⟩ 0 (mkElevator cfgW 2)).2.doorState = .opening)) :=
  door_move_mutual_exclusion cfgW _
    (Reachable.exec ⟨"E1", .moveUp, none⟩ 0 (Reachable.init 2))

/-! ### C5: idle elevator with a pickup request at its current floor -/

/-- Elevator idle at floor 0, doors closed, with a pickup request
registered for floor 0 (the configuration of Scenario 2). -/
def s0C5 : EState := addPickupRequest cfgW 0 (mkElevator cfgW 0)

lemma s0C5_eq :
    s0C5 = { currentFloor := 0, targetFloor := none, direction := .idle
             doorState := .closed, doorTimer := 0, moveTimer := 0
             passengers := [], requestedFloors := {0}, dropoffFloors := ∅
             pickupFloors := {0}, isMoving := false, actionStartTime := 0 } := by
  decide

lemma step_s0C5 (dt t : ℚ) : step cfgW dt t s0C5 = s0C5 := by
  rw [s0C5_eq]
  simp [step, updateDoorState, updateMovement, updateDirection]

lemma steps_s0C5_fix :
    ∀ ticks : List (ℚ × ℚ),
      ticks.foldl (fun s dtt => step cfgW dtt.1 dtt.2 s) s0C5 = s0C5
  | [] => rfl
  | (dt, t) :: ticks => by
      rw [List.foldl_cons]
      dsimp only
      rw [step_s0C5 dt t]
      exact steps_s0C5_fix ticks

/-- C5 counterexample: with the Scenario-2 configuration (doorOperationTime
1.5 s), the claimed closed→opening→open auto-open never happens: after one
1.5 s tick the doors are not opening, and after two ticks (3 s total, well
past doorOperationTime) they are not open — they are still closed. -/
theorem step_autoopen_counterexample :
    (step cfgW (3 / 2) (3 / 2) s0C5).doorState ≠ DoorState.opening ∧
    (step cfgW (3 / 2) 3 (step cfgW (3 / 2) (3 / 2) s0C5)).doorState ≠ DoorState.open_ ∧
    (step cfgW (3 / 2) (3 / 2) s0C5).doorState = DoorState.closed ∧
    (step cfgW (3 / 2) 3 (step cfgW (3 / 2) (3 / 2) s0C5)).doorState = DoorState.closed := by
  decide

/-- C5 amended: for an elevator idle at floor 0 with doors closed and a
pickup request registered for floor 0, repeatedly calling `step` (with no
MOVE or OPEN_DOORS commands) never opens the doors: the state is a fixed
point of `step` and `doorState` stays `closed` — the auto-open fires only
when a movement completes at a requested floor (`updateMovement`), never
while standing still. -/
theorem step_no_autoopen_when_idle (ticks : List (ℚ × ℚ)) :
    (ticks.foldl (fun s dtt => step cfgW dtt.1 dtt.2 s) s0C5) = s0C5 ∧
    (ticks.foldl (fun s dtt => step cfgW dtt.1 dtt.2 s) s0C5).doorState =
      DoorState.closed := by
  refine ⟨steps_s0C5_fix ticks, ?_⟩
  rw [steps_s0C5_fix ticks, s0C5_eq]

/-! ### C6: close-doors priority of the greedy policy -/

/-- C6: whenever an elevator snapshot in the input list has its doors
open, the greedy algorithm's `onTick` emits a close-doors command
addressed to that elevator, whatever the waiting-passenger list and the
current time (priority 1 of `getElevatorCommand`). -/
theorem greedy_close_doors_priority (elevators : List Elevator)
    (waiting : List Passenger) (currentTime : ℚ) (e : Elevator)
    (he : e ∈ elevators) (hdoor : e.doorState = .open_) :
    ({ elevatorId := e.id, action := .closeDoors, targetFloor := none } :
      ElevatorCommand) ∈ GreedyV2.onTick elevators waiting currentTime := by
  unfold GreedyV2.onTick
  refine List.mem_filterMap.mpr ⟨e, he, ?_⟩
  unfold GreedyV2.getElevatorCommand
  rw [if_pos hdoor]

/-- Idle elevator at floor 0 with its doors open, used by the C6 witness. -/
def eOpenW : Elevator :=
  { id := "E0", currentFloor := 0, direction := .idle, doorState := .open_
    passengers := [], capacity := 8, targetFloors := ∅ }

/-- Witness for C6 with a single open-door elevator and no waiting
passengers. -/
theorem greedy_close_doors_priority_witness :
    ({ elevatorId := eOpenW.id, action := .closeDoors, targetFloor := none } :
      ElevatorCommand) ∈ GreedyV2.onTick [eOpenW] [] 0 :=
  greedy_close_doors_priority [eOpenW] [] 0 eOpenW (List.mem_singleton.mpr rfl) rfl

/-! ### C7: the greedy policy does not partition calls among elevators -/

/-- Idle empty elevator "E0" at floor 0. -/
def e0W : Elevator :=
  { id := "E0", currentFloor := 0, direction := .idle, doorState := .closed
    passengers := [], capacity := 8, targetFloors := ∅ }

/-- Idle empty elevator "E1" at floor 4. -/
def e1W : Elevator :=
  { id := "E1", currentFloor := 4, direction := .idle, doorState := .closed
    passengers := [], capacity := 8, targetFloors := ∅ }

/-- Waiting passenger at floor 2, equidistant from `e0W` and `e1W`. -/
def pMidW : Passenger :=
  { id := ⟨0, 1⟩, startFloor := 2, destinationFloor := 3, requestTime := 0 }

/-- C7 counterexample: with two idle empty elevators E0 (floor 0) and E1
(floor 4) and one waiting passenger at floor 2 (equidistant), `onTick`
commands BOTH elevators — the returned list also contains a move command
addressed to E1, contradicting "only E0 receives the move command". -/
theorem greedy_both_commanded_counterexample :
    Greedy.onTick [e0W, e1W] [pMidW] 0 =
      [{ elevatorId := "E0", action := .moveUp, targetFloor := none },
       { elevatorId := "E1", action := .moveDown, targetFloor := none }] ∧
    ¬(∀ c ∈ Greedy.onTick [e0W, e1W] [pMidW] 0, c.elevatorId = "E0") := by
  decide

lemma createMoveCommand_some (e : Elevator) (tf : ℤ) :
    ∃ c, createMoveCommand e tf = some c ∧ c.elevatorId = e.id := by
  unfold createMoveCommand
  split
  · exact ⟨_, rfl, rfl⟩
  · split
    · exact ⟨_, rfl, rfl⟩
    · exact ⟨_, rfl, rfl⟩

/-- C7 amended: with two idle, empty elevators iterated in order [E0, E1]
and a single waiting passenger equidistant from both, `onTick` issues a
move command to EACH of them (the greedy policy evaluates every elevator
independently and does not partition calls), in iteration order. -/
theorem greedy_both_idle_commanded (e0 e1 : Elevator) (p : Passenger) (t : ℚ)
    (h0 : e0.direction = .idle) (h1 : e1.direction = .idle)
    (hp0 : e0.passengers = []) (hp1 : e1.passengers = [])
    (_hequi : |p.startFloor - e0.currentFloor| = |p.startFloor - e1.currentFloor|) :
    ∃ c0 c1, Greedy.onTick [e0, e1] [p] t = [c0, c1] ∧
      c0.elevatorId = e0.id ∧ c1.elevatorId = e1.id := by
  obtain ⟨c0, hc0, hid0⟩ := createMoveCommand_some e0 p.startFloor
  obtain ⟨c1, hc1, hid1⟩ := createMoveCommand_some e1 p.startFloor
  have hf0 : Greedy.findNearestCall e0 [p] = some p.startFloor := by
    simp [Greedy.findNearestCall, nearestScan, ltInf, hp0]
  have hf1 : Greedy.findNearestCall e1 [p] = some p.startFloor := by
    simp [Greedy.findNearestCall, nearestScan, ltInf, hp1]
  refine ⟨c0, c1, ?_, hid0, hid1⟩
  simp [Greedy.onTick, h0, h1, hf0, hf1, hc0, hc1]

/-- Witness for the amended C7 at the concrete equidistant scenario. -/
theorem greedy_both_idle_commanded_witness :
    ∃ c0 c1, Greedy.onTick [e0W, e1W] [pMidW] 0 = [c0, c1] ∧
      c0.elevatorId = e0W.id ∧ c1.elevatorId = e1W.id :=
  greedy_both_idle_commanded e0W e1W pMidW 0 rfl rfl rfl rfl (by decide)

/-! ### C9: spawn rate zero produces no passengers -/

lemma nextFloat_lt_one (r : LCG) : r.nextFloat.1 < 1 := by
  unfold LCG.nextFloat
  dsimp only
  rw [div_lt_one (by norm_num [lcgM])]
  have h := Nat.mod_lt (1664525 * r.seed + 1013904223)
    (show 0 < lcgM by norm_num [lcgM])
  exact_mod_cast h

lemma knuthLoop_zero_lambda (fuel : ℕ) (hfuel : 1 ≤ fuel) (r : LCG) :
    knuthLoop 1 fuel 1 0 r = (0, r.nextFloat.2) := by
  cases fuel with
  | zero => omega
  | succ n =>
      unfold knuthLoop
      rcases hnf : r.nextFloat with ⟨u, r'⟩
      have hu : u < 1 := by
        have := nextFloat_lt_one r
        rw [hnf] at this
        exact this
      dsimp only
      rw [if_neg (by rw [one_mul]; exact not_lt.mpr (le_of_lt hu))]

/-- C9: a spawner configured with `spawnRate = 0` returns an empty
passenger list from `nextTick` for every `deltaTime`, `currentTime`, and
waiting-count vector (and for every spawner state, Poisson-loop fuel ≥ 1,
and float model with `Math.exp 0 = 1`): either the minimum-spawn-interval
guard fires, or λ = 0 makes Knuth's loop draw a spawn count of 0. -/
theorem spawner_zero_rate_empty (cfg : SpawnerConfig) (fm : FloatModel)
    (now fuel : ℕ) (deltaTime currentTime : ℚ) (waitingCounts : List ℕ)
    (st : SpawnerState) (hrate : cfg.spawnRate = 0) (hexp : fm.exp 0 = 1)
    (hfuel : 1 ≤ fuel) :
    ∃ st', nextTick cfg fm now fuel deltaTime currentTime waitingCounts st =
      .ok ([], st') := by
  unfold nextTick
  dsimp only
  split
  · exact ⟨_, rfl⟩
  · have hpois : poissonSpawn fm fuel st.rng cfg.spawnRate (deltaTime / 60) =
        (0, st.rng.nextFloat.2) := by
      unfold poissonSpawn
      rw [hrate, zero_mul]
      rw [if_pos (by norm_num)]
      rw [neg_zero, hexp]
      exact knuthLoop_zero_lambda fuel hfuel st.rng
    rw [hpois]
    dsimp only
    exact ⟨_, rfl⟩

/-- Witness for C9: concrete zero-rate spawner, one tick of 60 s. -/
theorem spawner_zero_rate_empty_witness :
    ∃ st', nextTick { floorCount := 10, spawnRate := 0 }
        ⟨fun _ => 1, fun _ => 0, fun _ => 0, fun _ => 1, 3⟩ 0 1 60 60 []
        { rng := createSeededRNG 12345 } = .ok ([], st') :=
  spawner_zero_rate_empty _ _ 0 1 60 60 [] _ rfl rfl (le_refl 1)

/-! ### C10: destination-floor ranges and probability independence -/

lemma nextFloat_nonneg (r : LCG) : 0 ≤ r.nextFloat.1 := by
  unfold LCG.nextFloat
  dsimp only
  positivity

lemma nextInt_bounds {r r' : LCG} {lo hi v : ℤ}
    (h : r.nextInt lo hi = .ok (v, r')) : lo ≤ v ∧ v < hi := by
  unfold LCG.nextInt at h
  split at h
  · cases h
  · rename_i hlt
    dsimp only at h
    rw [Except.ok.injEq, Prod.mk.injEq] at h
    obtain ⟨hv, -⟩ := h
    subst hv
    have h0 : (0 : ℚ) ≤ r.nextFloat.1 := nextFloat_nonneg r
    have h1 : r.nextFloat.1 < 1 := nextFloat_lt_one r
    have hspan : (0 : ℤ) < hi - lo := by omega
    have hfl0 : (0 : ℤ) ≤ ⌊r.nextFloat.1 * ((hi - lo : ℤ) : ℚ)⌋ :=
      Int.floor_nonneg.mpr (mul_nonneg h0 (by exact_mod_cast hspan.le))
    have hflhi : ⌊r.nextFloat.1 * ((hi - lo : ℤ) : ℚ)⌋ < hi - lo := by
      rw [Int.floor_lt]
      calc r.nextFloat.1 * ((hi - lo : ℤ) : ℚ)
          < 1 * ((hi - lo : ℤ) : ℚ) :=
            mul_lt_mul_of_pos_right h1 (by exact_mod_cast hspan)
        _ = ((hi - lo : ℤ) : ℚ) := one_mul _
    omega

lemma selectDest_spec {cfg : SpawnerConfig} {sf df : ℤ} {r r' : LCG}
    (h : selectDestinationFloor cfg sf r = .ok (df, r')) :
    (sf = 0 → df = sf ∨ (1 ≤ df ∧ df < cfg.floorCount)) ∧
    (sf = cfg.floorCount - 1 → sf = 0 ∨ (0 ≤ df ∧ df < cfg.floorCount - 1)) := by
  unfold selectDestinationFloor at h
  split at h
  · rename_i h0
    split at h
    · rw [Except.ok.injEq, Prod.mk.injEq] at h
      obtain ⟨hdf, -⟩ := h
      exact ⟨fun _ => Or.inl hdf.symm, fun _ => Or.inl h0⟩
    · rcases hb : r.nextBoolean cfg.groundFloorUpProbability with e | ⟨b, r1⟩
      · rw [hb] at h; cases h
      · rw [hb] at h
        have hni : r1.nextInt 1 cfg.floorCount = .ok (df, r') := by
          cases b <;> simpa using h
        have hrange := nextInt_bounds hni
        exact ⟨fun _ => Or.inr hrange, fun _ => Or.inl h0⟩
  · rename_i h0
    dsimp only at h
    by_cases htop : sf = cfg.floorCount - 1
    · rw [if_pos htop] at h
      rcases hb : r.nextBoolean cfg.topFloorDownProbability with e | ⟨b, r1⟩
      · rw [hb] at h; cases h
      · rw [hb] at h
        have hni : r1.nextInt 0 (cfg.floorCount - 1) = .ok (df, r') := by
          cases b <;> simpa [LCG.nextIntMax] using h
        have hrange := nextInt_bounds hni
        exact ⟨fun hz => absurd hz h0, fun _ => Or.inr hrange⟩
    · exact ⟨fun hz => absurd hz h0, fun ht => absurd ht htop⟩

lemma spawnSingle_spec {cfg : SpawnerConfig} {pattern : SpawnPattern}
    {cw : List ℚ} {now : ℕ} {t : ℚ} {wc : List ℕ} {r r' : LCG} {p : Passenger}
    (h : spawnSinglePassenger cfg pattern cw now t wc r = .ok (some p, r')) :
    (p.startFloor = 0 → 1 ≤ p.destinationFloor ∧
      p.destinationFloor < cfg.floorCount) ∧
    (p.startFloor = cfg.floorCount - 1 → 0 ≤ p.destinationFloor ∧
      p.destinationFloor < cfg.floorCount - 1) ∧
    p.destinationFloor ≠ p.startFloor := by
  unfold spawnSinglePassenger at h
  rcases hsf : selectStartFloor cfg pattern cw r with e | ⟨sf, r1⟩
  · rw [hsf] at h; cases h
  · rw [hsf] at h
    dsimp only at h
    split at h
    · simp at h
    · rcases hdf : selectDestinationFloor cfg sf r1 with e | ⟨df, r2⟩
      · rw [hdf] at h; cases h
      · rw [hdf] at h
        dsimp only at h
        split at h
        · simp at h
        · rename_i hne
          rw [Except.ok.injEq, Prod.mk.injEq] at h
          obtain ⟨hp, -⟩ := h
          rw [Option.some.injEq] at hp
          subst hp
          obtain ⟨hA, hB⟩ := selectDest_spec hdf
          refine ⟨?_, ?_, hne⟩
          · intro h0
            rcases hA h0 with heq | hrange
            · exact absurd heq hne
            · exact hrange
          · intro htop
            dsimp only at htop
            rcases hB htop with h0 | hrange
            · rcases hA h0 with heq | ⟨hge, hlt⟩
              · exact absurd heq hne
              · exfalso; omega
            · exact hrange

lemma spawnLoop_mem (cfg : SpawnerConfig) (pattern : SpawnPattern)
    (cw : List ℚ) (now : ℕ) (t : ℚ) (wc : List ℕ) :
    ∀ (count : ℕ) (r : LCG) (acc : List Passenger) (spawned : ℕ)
      (ps : List Passenger) (r' : LCG) (n' : ℕ),
      spawnLoop cfg pattern cw now t wc count r acc spawned = .ok (ps, r', n') →
      ∀ p ∈ ps, p ∈ acc ∨
        ∃ r0 r1, spawnSinglePassenger cfg pattern cw now t wc r0 = .ok (some p, r1)
  | 0, r, acc, spawned, ps, r', n', h, p, hp => by
      unfold spawnLoop at h
      rw [Except.ok.injEq, Prod.mk.injEq] at h
      obtain ⟨h1, -⟩ := h
      rw [← h1] at hp
      exact Or.inl hp
  | count + 1, r, acc, spawned, ps, r', n', h, p, hp => by
      unfold spawnLoop at h
      rcases hs : spawnSinglePassenger cfg pattern cw now t wc r with e | ⟨op, r1⟩
      · rw [hs] at h; cases h
      · rw [hs] at h
        rcases op with _ | q
        · dsimp only at h
          rcases spawnLoop_mem cfg pattern cw now t wc count r1 acc spawned
              ps r' n' h p hp with hacc | hex
          · exact Or.inl hacc
          · exact Or.inr hex
        · dsimp only at h
          rcases spawnLoop_mem cfg pattern cw now t wc count r1 (acc ++ [q])
              (spawned + 1) ps r' n' h p hp with hacc | hex
          · rcases List.mem_append.1 hacc with ha | hq
            · exact Or.inl ha
            · have hpq : p = q := by simpa using hq
              exact Or.inr ⟨r, r1, by rw [hpq]; exact hs⟩
          · exact Or.inr hex

lemma nextTick_mem {cfg : SpawnerConfig} {fm : FloatModel} {now fuel : ℕ}
    {dt t : ℚ} {wc : List ℕ} {st : SpawnerState} {ps : List Passenger}
    {st' : SpawnerState}
    (h : nextTick cfg fm now fuel dt t wc st = .ok (ps, st')) :
    ∀ p ∈ ps, ∃ r0 r1,
      spawnSinglePassenger cfg st.currentPattern st.customWeights now t wc r0 =
        .ok (some p, r1) := by
  unfold nextTick at h
  dsimp only at h
  split at h
  · rw [Except.ok.injEq, Prod.mk.injEq] at h
    obtain ⟨hps, -⟩ := h
    intro p hp
    rw [← hps] at hp
    cases hp
  · rcases hsl : spawnLoop cfg st.currentPattern st.customWeights now t wc
        (poissonSpawn fm fuel st.rng cfg.spawnRate (dt / 60)).1
        (poissonSpawn fm fuel st.rng cfg.spawnRate (dt / 60)).2 [] 0
      with e | ⟨passengers, r2, spawned⟩
    · rw [hsl] at h; cases h
    · rw [hsl] at h
      dsimp only at h
      have hps : ps = passengers := by
        split at h <;>
          (rw [Except.ok.injEq, Prod.mk.injEq] at h; exact h.1.symm)
      intro p hp
      rw [hps] at hp
      rcases spawnLoop_mem cfg st.currentPattern st.customWeights now t wc
          _ _ [] 0 passengers r2 spawned hsl p hp with habs | hex
      · cases habs
      · exact hex

/-- Decidable equality on `Except`, used to evaluate the spawner on
concrete inputs. -/
instance {α β : Type} [DecidableEq α] [DecidableEq β] :
    DecidableEq (Except α β) := fun a b =>
  match a, b with
  | .error x, .error y =>
      if h : x = y then isTrue (by rw [h])
      else isFalse (by intro hc; cases hc; exact h rfl)
  | .ok x, .ok y =>
      if h : x = y then isTrue (by rw [h])
      else isFalse (by intro hc; cases hc; exact h rfl)
  | .error _, .ok _ => isFalse (by intro hc; cases hc)
  | .ok _, .error _ => isFalse (by intro hc; cases hc)

lemma nextBoolean_valid (r : LCG) {p : ℚ} (h0 : 0 ≤ p) (h1 : p ≤ 1) :
    r.nextBoolean p = .ok (decide (r.nextFloat.1 < p), r.nextFloat.2) := by
  unfold LCG.nextBoolean
  rw [if_neg (by push_neg; exact ⟨h0, h1⟩)]

lemma selectDest_prob_independent (cfg : SpawnerConfig) (q1 q2 q3 q4 : ℚ)
    (sf : ℤ) (r : LCG) (h1 : 0 ≤ q1) (h2 : q1 ≤ 1) (h3 : 0 ≤ q2) (h4 : q2 ≤ 1)
    (h5 : 0 ≤ q3) (h6 : q3 ≤ 1) (h7 : 0 ≤ q4) (h8 : q4 ≤ 1) :
    selectDestinationFloor { cfg with groundFloorUpProbability := q1, topFloorDownProbability := q2 } sf r =
    selectDestinationFloor { cfg with groundFloorUpProbability := q3, topFloorDownProbability := q4 } sf r := by
  unfold selectDestinationFloor
  dsimp only
  by_cases hsf0 : sf = 0
  · rw [if_pos hsf0, if_pos hsf0]
    by_cases hfc : cfg.floorCount = 1
    · rw [if_pos hfc, if_pos hfc]
    · rw [if_neg hfc, if_neg hfc, nextBoolean_valid r h1 h2,
        nextBoolean_valid r h5 h6]
      dsimp only
      rw [ite_self, ite_self]
  · rw [if_neg hsf0, if_neg hsf0]
    by_cases hst : sf = cfg.floorCount - 1
    · rw [if_pos hst, if_pos hst, nextBoolean_valid r h3 h4,
        nextBoolean_valid r h7 h8]
      dsimp only
      rw [ite_self, ite_self]
    · rw [if_neg hst, if_neg hst]

/-- C10: every passenger produced by `nextTick` respects the boundary
destination ranges — a ground-floor passenger's destination is in
`[1, floorCount)` and a top-floor passenger's destination is in
`[0, floorCount-1)` — unconditionally, and no spawned passenger has
`destinationFloor = startFloor`; moreover both branches of the
`groundFloorUpProbability`/`topFloorDownProbability` test draw from the
same range, so `selectDestinationFloor` does not depend on those
configured probabilities at all (for any in-range probability values). -/
theorem spawn_destination_ranges :
    (∀ (cfg : SpawnerConfig) (fm : FloatModel) (now fuel : ℕ)
        (deltaTime currentTime : ℚ) (waitingCounts : List ℕ)
        (st : SpawnerState) (ps : List Passenger) (st' : SpawnerState),
      nextTick cfg fm now fuel deltaTime currentTime waitingCounts st =
        .ok (ps, st') →
      ∀ p ∈ ps,
        (p.startFloor = 0 → 1 ≤ p.destinationFloor ∧
          p.destinationFloor < cfg.floorCount) ∧
        (p.startFloor = cfg.floorCount - 1 → 0 ≤ p.destinationFloor ∧
          p.destinationFloor < cfg.floorCount - 1) ∧
        p.destinationFloor ≠ p.startFloor) ∧
    (∀ (cfg : SpawnerConfig) (q1 q2 q3 q4 : ℚ) (sf : ℤ) (r : LCG),
      0 ≤ q1 → q1 ≤ 1 → 0 ≤ q2 → q2 ≤ 1 → 0 ≤ q3 → q3 ≤ 1 → 0 ≤ q4 → q4 ≤ 1 →
      selectDestinationFloor { cfg with groundFloorUpProbability := q1, topFloorDownProbability := q2 } sf r =
      selectDestinationFloor { cfg with groundFloorUpProbability := q3, topFloorDownProbability := q4 } sf r) := by
  constructor
  · intro cfg fm now fuel dt t wc st ps st' h p hp
    obtain ⟨r0, r1, hs⟩ := nextTick_mem h p hp
    exact spawnSingle_spec hs
  · intro cfg q1 q2 q3 q4 sf r h1 h2 h3 h4 h5 h6 h7 h8
    exact selectDest_prob_independent cfg q1 q2 q3 q4 sf r h1 h2 h3 h4 h5 h6 h7 h8

/-- Concrete spawner fixtures for the C10 witness: 10 floors, 2 spawns per
minute, uniform pattern, seed 1; a 300 s tick makes λ = 10, taking the
normal-approximation branch of `poissonSpawn`. -/
def cfgS : SpawnerConfig := { floorCount := 10, spawnRate := 2 }

/-- Float model used by the C10 witness: constant stand-ins for the
transcendentals, chosen so the normal draw is (-9)·1 + 10 = 1, i.e. the
tick spawns exactly one passenger. -/
def fmS : FloatModel :=
  { exp := fun _ => 1, log := fun _ => 0, sqrt := fun _ => 1,
    cos := fun _ => -9, pi := 3 }

/-- Spawner state used by the C10 witness. -/
def stS : SpawnerState := { rng := createSeededRNG 1 }

/-- The passenger the C10 witness run produces. -/
def pS : Passenger :=
  { id := ⟨7, 50543⟩, startFloor := 5, destinationFloor := 7, requestTime := 300 }

/-- The spawner state after the C10 witness run. -/
def stS' : SpawnerState :=
  { rng := ⟨217083232⟩, lastSpawnTime := 300, totalRunTime := 300
    currentPattern := .uniform, customWeights := [], totalSpawned := 1
    timeSinceLastSpawn := 0 }

lemma nfA : LCG.nextFloat ⟨1⟩ = (253892187 / 1073741824, ⟨1015568748⟩) := by
  norm_num [LCG.nextFloat, lcgM]

lemma nfB : LCG.nextFloat ⟨1015568748⟩ =
    (1586005467 / 4294967296, ⟨1586005467⟩) := by
  norm_num [LCG.nextFloat, lcgM]

lemma nfC : LCG.nextFloat ⟨1586005467⟩ =
    (1082851519 / 2147483648, ⟨2165703038⟩) := by
  norm_num [LCG.nextFloat, lcgM]

lemma nfD : LCG.nextFloat ⟨2165703038⟩ =
    (3027450565 / 4294967296, ⟨3027450565⟩) := by
  norm_num [LCG.nextFloat, lcgM]

lemma nfE : LCG.nextFloat ⟨3027450565⟩ = (6783851 / 134217728, ⟨217083232⟩) := by
  norm_num [LCG.nextFloat, lcgM]

lemma poisson_runS :
    poissonSpawn fmS 30 ⟨1⟩ cfgS.spawnRate (300 / 60) = (1, ⟨1586005467⟩) := by
  unfold poissonSpawn normalRandom
  rw [show cfgS.spawnRate = 2 from rfl]
  rw [if_neg (by norm_num)]
  rw [nfA]
  dsimp only
  rw [nfB]
  dsimp only [fmS]
  norm_num [jsRound]

lemma startFloor_runS :
    selectStartFloor cfgS .uniform [] ⟨1586005467⟩ = .ok (5, ⟨2165703038⟩) := by
  unfold selectStartFloor LCG.nextIntMax LCG.nextInt
  rw [if_neg (by norm_num [cfgS])]
  rw [nfC]
  dsimp only
  norm_num [cfgS]

lemma dest_runS :
    selectDestinationFloor cfgS 5 ⟨2165703038⟩ = .ok (7, ⟨3027450565⟩) := by
  unfold selectDestinationFloor LCG.choice LCG.nextIntMax LCG.nextInt
  rw [if_neg (by norm_num), if_neg (by norm_num [cfgS])]
  rw [show (((List.range cfgS.floorCount.toNat).map (Int.ofNat)).filter
      (· ≠ (5 : ℤ))) = [0, 1, 2, 3, 4, 6, 7, 8, 9] from by decide]
  rw [if_neg (by decide), if_neg (by decide)]
  rw [nfD]
  dsimp only
  norm_num
  decide

lemma genId_runS : generateId ⟨3027450565⟩ 7 = (⟨7, 50543⟩, ⟨217083232⟩) := by
  unfold generateId
  rw [nfE]
  norm_num

lemma spawnSingle_runS :
    spawnSinglePassenger cfgS .uniform [] 7 300 [] ⟨1586005467⟩ =
      .ok (some pS, ⟨217083232⟩) := by
  unfold spawnSinglePassenger
  rw [startFloor_runS]
  dsimp only
  rw [if_neg (by decide)]
  rw [dest_runS]
  dsimp only
  rw [if_neg (by decide)]
  rw [genId_runS]
  rfl

lemma spawnLoop_runS :
    spawnLoop cfgS .uniform [] 7 300 [] 1 ⟨1586005467⟩ [] 0 =
      .ok ([pS], ⟨217083232⟩, 1) := by
  unfold spawnLoop
  rw [spawnSingle_runS]
  rfl

lemma nextTick_runS :
    nextTick cfgS fmS 7 30 300 300 [] stS = .ok ([pS], stS') := by
  unfold nextTick
  dsimp only [stS]
  rw [if_neg (by norm_num [cfgS])]
  rw [show createSeededRNG 1 = ⟨1⟩ from by norm_num [createSeededRNG]]
  rw [poisson_runS]
  dsimp only
  rw [spawnLoop_runS]
  dsimp only
  rw [if_pos (by decide)]
  norm_num [stS']

/-- Witness for C10: a 300-second tick at seed 1 spawns exactly one
passenger (floor 5 → floor 7), and the range/distinctness facts hold for
it; the probability-independence part is instantiated at probabilities
1/2, 1/2 vs 1/4, 3/4. -/
theorem spawn_destination_ranges_witness :
    (∀ p ∈ [pS],
      (p.startFloor = 0 → 1 ≤ p.destinationFloor ∧
        p.destinationFloor < cfgS.floorCount) ∧
      (p.startFloor = cfgS.floorCount - 1 → 0 ≤ p.destinationFloor ∧
        p.destinationFloor < cfgS.floorCount - 1) ∧
      p.destinationFloor ≠ p.startFloor) ∧
    selectDestinationFloor { cfgS with groundFloorUpProbability := 1 / 2, topFloorDownProbability := 1 / 2 } 0 (createSeededRNG 1) =
    selectDestinationFloor { cfgS with groundFloorUpProbability := 1 / 4, topFloorDownProbability := 3 / 4 } 0 (createSeededRNG 1) :=
  ⟨spawn_destination_ranges.1 cfgS fmS 7 30 300 300 [] stS [pS] stS'
      nextTick_runS,
   spawn_destination_ranges.2 cfgS (1 / 2) (1 / 2) (1 / 4) (3 / 4) 0
     (createSeededRNG 1) (by norm_num) (by norm_num) (by norm_num) (by norm_num)
     (by norm_num) (by norm_num) (by norm_num) (by norm_num)⟩

end LiftLab
